import Mathlib

/-!
# Verification of the E2EE signature-session relay

Shallow embedding of the signature-session subsystem of the `request-my-ehi`
relay server:

* the in-memory session store and its TTL sweeper
  (`server/src/store.ts`: `SignatureSession`, `createSession`, `getSession`,
  and the `setInterval` cleanup callback);
* the HTTP handlers for the signature routes
  (`server/src/routes/signature.ts`: create / info / poll / submit);
* the signing-page route (`server/src/index.ts`: `app.get("/sign/:sessionId")`);
* a model of the two-sided ECDH / AES-GCM handshake used by
  `scripts/create-signature-session.ts` and `scripts/poll-signature.ts`.

The server is a single-process event loop.  Handlers run synchronously
except at `await` points.  The submit handler contains one `await`
(`await c.req.json()`) *between* its status guard and its write block, so it
is embedded as two atomic phases (`submitGuard`, then the body phase); the
other operations (create, info, the poll status check, one sweeper pass, the
submit write block) contain no internal `await` and are embedded as single
atomic steps.  `Step` is the induced small-step transition relation of the
event loop and `Reachable` its reflexive-transitive closure from the empty
store.
-/

namespace EhiRelay

/-- The `status` field of a session: `"waiting" | "completed" | "expired"`. -/
inductive Status where
  | waiting
  | completed
  | expired
deriving DecidableEq

/-- An `AuditEntry` from `store.ts`: `{timestamp, event, ip?, userAgent?}`. -/
structure AuditEntry where
  timestamp : String
  event : String
  ip : Option String
  userAgent : Option String
deriving DecidableEq

/-- The `EncryptedPayload` envelope from `store.ts`: `{ciphertext, iv, ephemeralPublicKey}`.
The three components are opaque to the relay (base64 strings / a JWK object);
all are embedded as strings. -/
structure EncryptedPayload where
  ciphertext : String
  iv : String
  ephemeralPublicKey : String
deriving DecidableEq

/-- The `SignatureSession` record from `store.ts`.  The TS `waiters` field is an array of
resolver callbacks for suspended long-poll requests; each live poll request is
identified here by a numeric token, and "invoking" a waiter is recorded as a
`Delivery` (the token together with the session view passed to the resolver).
Note the store's record has no `requestDriversLicense` field: the routes file
passes that flag through to `createSession`, whose parameter object drops it,
so reading `session.requestDriversLicense` in the info handler always yields
`undefined`. -/
structure SignatureSession where
  id : String
  publicKeyJwk : String
  instructions : String
  signerName : Option String
  status : Status
  encryptedPayload : Option EncryptedPayload
  createdAt : Nat
  expiresAt : Nat
  auditLog : List AuditEntry
  waiters : List Nat
deriving DecidableEq

/-- The `sessions` map of `store.ts`, as an association list in insertion
order (JS `Map` iterates in insertion order, and `Map.set` is only called
with fresh UUID keys). -/
abbrev Store := List (String × SignatureSession)

/-- One waiter invocation: `resolve(session)` — the waiter token together
with the session state passed to the resolver. -/
abbrev Delivery := Nat × SignatureSession

/-- Embeds `getSession` from `store.ts`: `sessions.get(id)`. -/
def getSession (store : Store) (id : String) : Option SignatureSession :=
  List.lookup id store

/-- In-place mutation of the session object stored under `id` (the TS
handlers mutate the object held in the map; the map itself is unchanged). -/
def updateSession (store : Store) (id : String) (f : SignatureSession → SignatureSession) :
    Store :=
  store.map (fun p => if p.1 = id then (p.1, f p.2) else p)

/-- Embeds `createSession` from `store.ts`, with the ambient effects made explicit:
`id` stands for the generated `crypto.randomUUID()`, `now` for `Date.now()`
and `nowIso` for `new Date().toISOString()` at the creation instant (the two
`Date.now()` calls in the source run in the same synchronous block and are
embedded as the same instant).  `ttl = (expiryMinutes ?? 60) * 60 * 1000`. -/
def createSession (now : Nat) (nowIso : String) (id : String)
    (publicKeyJwk instructions : String) (signerName : Option String)
    (expiryMinutes : Option Nat) : SignatureSession :=
  { id := id
    publicKeyJwk := publicKeyJwk
    instructions := instructions
    signerName := signerName
    status := Status.waiting
    encryptedPayload := none
    createdAt := now
    expiresAt := now + (expiryMinutes.getD 60) * 60 * 1000
    auditLog := [{ timestamp := nowIso, event := "created", ip := none, userAgent := none }]
    waiters := [] }

/-! ## The TTL sweeper (`setInterval` callback in `store.ts`) -/

/-- Embeds `DATA_TTL_MS` from `store.ts` (retention window after expiry). -/
def DATA_TTL_MS : Nat := 60 * 60 * 1000

/-- The expiry branch of the sweeper applied to one session:
`status = "expired"`, push an `expired` audit entry, clear the waiter list. -/
def expireSession (nowIso : String) (s : SignatureSession) : SignatureSession :=
  { s with
    status := Status.expired
    auditLog := s.auditLog ++ [{ timestamp := nowIso, event := "expired", ip := none, userAgent := none }]
    waiters := [] }

/-- The per-session body of the sweeper's first `if`:
when `now > session.expiresAt && session.status === "waiting"`, expire the
session and resolve every registered waiter with the (mutated) session;
otherwise leave it alone.  Returns the resulting session and the waiter
invocations it performed. -/
def sweepSession (now : Nat) (nowIso : String) (s : SignatureSession) :
    SignatureSession × List Delivery :=
  if s.expiresAt < now ∧ s.status = Status.waiting then
    let s' := expireSession nowIso s
    (s', s.waiters.map (fun w => (w, s')))
  else
    (s, [])

/-- One full sweeper pass over the session map, in iteration order.  For each
session: first the expiry branch (`sweepSession`), then the retention branch
(`if (now > session.expiresAt + DATA_TTL_MS) sessions.delete(id)`).  Returns
the surviving store and all waiter invocations of the pass. -/
def sweep (now : Nat) (nowIso : String) : Store → Store × List Delivery
  | [] => ([], [])
  | p :: rest =>
    let r := sweepSession now nowIso p.2
    let rec' := sweep now nowIso rest
    if r.1.expiresAt + DATA_TTL_MS < now then
      (rec'.1, r.2 ++ rec'.2)
    else
      ((p.1, r.1) :: rec'.1, r.2 ++ rec'.2)

/-! ## HTTP handlers (`routes/signature.ts`, `index.ts`) -/

/-- Result of `GET /sessions/:id/info`. -/
inductive InfoResult where
  /-- HTTP 404 `{error: "Session not found"}` -/
  | notFound
  /-- HTTP 410 `{error: "Session expired"}` -/
  | expired
  /-- HTTP 409 `{error: "Session already completed"}` -/
  | alreadyCompleted
  /-- HTTP 200 `{publicKeyJwk, instructions, signerName, requestDriversLicense}`
  (fields whose value is `undefined` are dropped from the JSON body). -/
  | ok (publicKeyJwk instructions : String) (signerName : Option String)
      (requestDriversLicense : Option Bool)
deriving DecidableEq

/-- Embeds `signatureRoutes.get("/sessions/:id/info")`: status-based guards, then the
session metadata.  `session.requestDriversLicense` is always `undefined`
because the store's `SignatureSession` has no such field (see
`SignatureSession` above), so that response field is always absent. -/
def getSessionInfo (store : Store) (id : String) : InfoResult :=
  match getSession store id with
  | none => InfoResult.notFound
  | some s =>
    if s.status = Status.expired then InfoResult.expired
    else if s.status = Status.completed then InfoResult.alreadyCompleted
    else InfoResult.ok s.publicKeyJwk s.instructions s.signerName none

/-- Body of a poll response as built by `sessionPollResponse`: always
`{status}`, plus `encryptedPayload` and `auditLog` when the session is
completed and the payload is present. -/
structure PollResponse where
  status : Status
  encryptedPayload : Option EncryptedPayload
  auditLog : Option (List AuditEntry)
deriving DecidableEq

/-- Embeds `sessionPollResponse` from `routes/signature.ts`. -/
def sessionPollResponse (s : SignatureSession) : PollResponse :=
  if s.status = Status.completed ∧ s.encryptedPayload.isSome then
    { status := s.status, encryptedPayload := s.encryptedPayload, auditLog := some s.auditLog }
  else
    { status := s.status, encryptedPayload := none, auditLog := none }

/-- Result of the synchronous head of `GET /sessions/:id/poll`: 404, an
immediate response (`status !== "waiting"`), or registration of a waiter and
suspension of the request. -/
inductive PollCheckResult where
  | notFound
  | immediate (r : PollResponse)
  | registered
deriving DecidableEq

/-- The synchronous part of the poll handler, up to the point where the
request either responds immediately or pushes a resolver onto
`session.waiters` and suspends. -/
def pollCheck (store : Store) (id : String) : PollCheckResult :=
  match getSession store id with
  | none => PollCheckResult.notFound
  | some s =>
    if s.status = Status.waiting then PollCheckResult.registered
    else PollCheckResult.immediate (sessionPollResponse s)

/-- Result of the synchronous head (guard phase) of
`POST /sessions/:id/submit`, i.e. everything before `await c.req.json()`. -/
inductive SubmitGuardResult where
  /-- HTTP 404 `{error: "Session not found"}` -/
  | notFound
  /-- HTTP 410 `{error: "Session expired"}` -/
  | expired
  /-- HTTP 409 `{error: "Session already completed"}` -/
  | alreadyCompleted
  /-- guards passed; the handler suspends on `await c.req.json()` -/
  | proceed
deriving DecidableEq

/-- Guard phase of the submit handler (`routes/signature.ts` lines 87-96):
404 / 410 / 409 checks against the current session status, before the
request body is read. -/
def submitGuard (store : Store) (id : String) : SubmitGuardResult :=
  match getSession store id with
  | none => SubmitGuardResult.notFound
  | some s =>
    if s.status = Status.expired then SubmitGuardResult.expired
    else if s.status = Status.completed then SubmitGuardResult.alreadyCompleted
    else SubmitGuardResult.proceed

/-- JS falsiness on an optional string body field (`undefined` or `""`). -/
def falsyStr (o : Option String) : Bool :=
  match o with
  | none => true
  | some s => s = ""

/-- The write block of the submit handler (`routes/signature.ts` lines
105-116), applied to the session object captured before the `await`:
set the payload, flip the status, push the `submitted` audit entry, resolve
every waiter with the mutated session, clear the waiter list.  All of it is
one synchronous block (no `await` inside).  Returns the mutated session and
the waiter invocations. -/
def submitWrite (nowIso : String) (ip userAgent : Option String)
    (ciphertext iv ephemeralPublicKey : String) (s : SignatureSession) :
    SignatureSession × List Delivery :=
  let s' := { s with
    encryptedPayload := some { ciphertext := ciphertext, iv := iv,
                               ephemeralPublicKey := ephemeralPublicKey }
    status := Status.completed
    auditLog := s.auditLog ++ [{ timestamp := nowIso, event := "submitted", ip := ip, userAgent := userAgent }]
    waiters := [] }
  (s', s.waiters.map (fun w => (w, s')))

/-- Result of the body phase of the submit handler. -/
inductive SubmitResult where
  /-- HTTP 400 `{error: "ciphertext, iv, and ephemeralPublicKey are required"}` -/
  | badRequest
  /-- HTTP 200 `{status: "completed"}` -/
  | completed
deriving DecidableEq

/-- The body phase of the submit handler: after `await c.req.json()` resolves,
validate the three fields and, if they are all truthy, run the write block on
the session object.  The status is *not* re-checked here (faithful to the
source).  Returns the resulting store and the HTTP result. -/
def submitBody (store : Store) (id : String) (nowIso : String)
    (ip userAgent : Option String) (ciphertext iv ephemeralPublicKey : Option String) :
    Store × SubmitResult :=
  if falsyStr ciphertext ∨ falsyStr iv ∨ falsyStr ephemeralPublicKey then
    (store, SubmitResult.badRequest)
  else
    (updateSession store id
      (fun s => (submitWrite nowIso ip userAgent (ciphertext.getD "") (iv.getD "")
        (ephemeralPublicKey.getD "") s).1),
     SubmitResult.completed)

/-- Result of `GET /sign/:sessionId` (`index.ts`). -/
inductive SignPageResult where
  /-- HTTP 404 `"Session not found or expired"` -/
  | notFound
  /-- HTTP 200, the static `sign.html` page -/
  | html
deriving DecidableEq

/-- Embeds `app.get("/sign/:sessionId")` from `index.ts`: 404 when the id is not in
the store, otherwise serve the signing page (no status check). -/
def signPage (store : Store) (id : String) : SignPageResult :=
  match getSession store id with
  | none => SignPageResult.notFound
  | some _ => SignPageResult.html

/-! ## The event loop

State of the server process: the session map plus the set of submit requests
that have passed their guard phase and are suspended on `await c.req.json()`
(each identified by a request token together with the session id its handler
captured).  Long-poll registrations live inside each session's `waiters`
list, as in the source. -/

/-- Server state between atomic event-loop slices. -/
structure SysState where
  store : Store
  pendingSubmits : List (Nat × String)
deriving DecidableEq

/-- Push a poll resolver onto `session.waiters`. -/
def pushWaiter (w : Nat) (s : SignatureSession) : SignatureSession :=
  { s with waiters := s.waiters ++ [w] }

/-- One atomic slice of the event loop.  Each constructor is a maximal
synchronous run of one handler or of the sweeper:

* `create` — the whole `POST /sessions` handler (validation passed, fresh
  UUID);
* `pollRegister` — the poll handler registering a waiter on a waiting
  session (immediate responses and timeouts do not change server state);
* `submitGuardPass` — the guard phase of a submit handler passing and the
  handler suspending on the body read;
* `submitBodyDone` — a suspended submit handler resuming with a valid body
  and running its write block (the status is not re-checked, as in the
  source);
* `submitBodyBad` — a suspended submit handler resuming with a missing/empty
  field and responding 400 without touching the session;
* `sweepTick` — one full sweeper pass. -/
inductive Step : SysState → SysState → Prop where
  | create (σ : SysState) (now : Nat) (nowIso id publicKey instructions : String)
      (signerName : Option String) (expiryMinutes : Option Nat)
      (hfresh : getSession σ.store id = none)
      (hpk : publicKey ≠ "") (hinstr : instructions ≠ "") :
      Step σ { store := σ.store ++ [(id, createSession now nowIso id publicKey instructions signerName expiryMinutes)]
               pendingSubmits := σ.pendingSubmits }
  | pollRegister (σ : SysState) (id : String) (w : Nat) (s : SignatureSession)
      (hs : getSession σ.store id = some s) (hw : s.status = Status.waiting) :
      Step σ { store := updateSession σ.store id (pushWaiter w)
               pendingSubmits := σ.pendingSubmits }
  | submitGuardPass (σ : SysState) (rid : Nat) (id : String)
      (hg : submitGuard σ.store id = SubmitGuardResult.proceed) :
      Step σ { store := σ.store
               pendingSubmits := σ.pendingSubmits ++ [(rid, id)] }
  | submitBodyDone (σ : SysState) (rid : Nat) (id : String) (nowIso : String)
      (ip userAgent : Option String) (ciphertext iv ephemeralPublicKey : String)
      (hp : (rid, id) ∈ σ.pendingSubmits)
      (hct : ciphertext ≠ "") (hiv : iv ≠ "") (hepk : ephemeralPublicKey ≠ "") :
      Step σ { store := (submitBody σ.store id nowIso ip userAgent
                 (some ciphertext) (some iv) (some ephemeralPublicKey)).1
               pendingSubmits := σ.pendingSubmits.eraseP (fun q => q.1 == rid) }
  | submitBodyBad (σ : SysState) (rid : Nat) (id : String)
      (hp : (rid, id) ∈ σ.pendingSubmits) :
      Step σ { store := σ.store
               pendingSubmits := σ.pendingSubmits.eraseP (fun q => q.1 == rid) }
  | sweepTick (σ : SysState) (now : Nat) (nowIso : String) :
      Step σ { store := (sweep now nowIso σ.store).1
               pendingSubmits := σ.pendingSubmits }

/-- States reachable by the event loop from a fresh server (empty store, no
suspended submits). -/
inductive Reachable : SysState → Prop where
  | init : Reachable { store := [], pendingSubmits := [] }
  | step {σ σ' : SysState} : Reachable σ → Step σ σ' → Reachable σ'

/-! ## The store invariant (definition)

Distinct keys (`Map.set` is only called on fresh `crypto.randomUUID()` ids)
and the envelope invariant: `encryptedPayload` is present exactly on
completed sessions. -/

/-- The envelope invariant of one session record. -/
def payloadIff (s : SignatureSession) : Prop :=
  s.status = Status.completed ↔ s.encryptedPayload.isSome = true

/-- Invariant of the session map. -/
def StoreInv (store : Store) : Prop :=
  (store.map Prod.fst).Nodup ∧ ∀ p ∈ store, payloadIff p.2

/-! ## Cryptographic handshake model

The relay treats the envelope as opaque bytes; the cryptography lives in the
owner-side scripts (`create-signature-session.ts` generates the ECDH P-256
key pair, `poll-signature.ts` derives the shared secret and decrypts) and in
the signing page served to the signer's browser, which generates the
ephemeral key pair, derives the same secret, and encrypts.  The signing page
and the WebCrypto primitives themselves are not part of the source tree, so
the handshake is modelled from the spec, as follows.

Modelled from the spec: the points of the prime-order subgroup generated by
the P-256 base point `G` are represented by their discrete logarithm — an
exponent in `ZMod n` where `n` is the (standard) order of `G`; `G` itself is
exponent `1`, scalar multiplication of a point is multiplication of its
exponent by the scalar, and two points are equal iff their exponents are.
The ECDH shared secret is the x-coordinate of the shared point, a function
of the point, represented here injectively by the point's exponent.

Modelled from the spec: AES-256-GCM is counter-mode encryption (per-byte
keystream here, counters from 2 as in GCM) under the AES block permutation,
plus an authentication tag over the ciphertext; the AES permutation is a
WebCrypto primitive, so the model is parametric in an arbitrary `block`
function, and the round-trip theorem quantifies over it. -/

/-- Modelled from the spec: the order of the P-256 base-point group (the
standard constant `n` of the curve). -/
def p256Order : Nat :=
  115792089210356248762697446949407573529996955224135760342422259061068512044369

/-- Modelled from the spec: a point of the subgroup generated by the P-256
base point, represented by its discrete logarithm. -/
abbrev PointExp := ZMod p256Order

/-- Modelled from the spec: the base point `G`, exponent `1`. -/
def genExp : PointExp := 1

/-- Modelled from the spec: the public half `sk · G` of an ECDH P-256 key
pair (`crypto.subtle.generateKey` in `create-signature-session.ts` and in
the signing page). -/
def pubKey (sk : PointExp) : PointExp := sk * genExp

/-- Modelled from the spec: `crypto.subtle.deriveBits({name: "ECDH", public: pk}, sk, 256)`
— the shared point `sk · pk`. -/
def deriveBits (sk pk : PointExp) : PointExp := sk * pk

/-- Modelled from the spec: the counter-mode keystream XOR of AES-GCM,
parametric in the AES block permutation `block` (applied to key, IV and
counter, truncated to one byte per position). Self-inverse by construction,
as in GCM. -/
def ctrXor (block : Nat → Nat → Nat → Nat) (key iv : Nat) : Nat → List Nat → List Nat
  | _, [] => []
  | ctr, b :: rest => (b ^^^ (block key iv ctr % 256)) :: ctrXor block key iv (ctr + 1) rest

/-- Modelled from the spec: the GCM authentication tag over the ciphertext
(a GHASH-style accumulator masked with the counter-0 block). -/
def gcmTag (block : Nat → Nat → Nat → Nat) (key iv : Nat) (c : List Nat) : Nat :=
  (c.foldl (fun acc b => (acc * 257 + b) % 2 ^ 128) 0 + block key iv 0) % 2 ^ 128

/-- Modelled from the spec: AES-GCM encryption of the serialized plaintext
(`crypto.subtle.encrypt` on the signing page): ciphertext plus tag. -/
def aesGcmEncrypt (block : Nat → Nat → Nat → Nat) (key iv : Nat) (p : List Nat) :
    List Nat × Nat :=
  let c := ctrXor block key iv 2 p
  (c, gcmTag block key iv c)

/-- Modelled from the spec: AES-GCM decryption (`crypto.subtle.decrypt` in
`poll-signature.ts`): verify the tag — mismatch is a hard failure (`none`) —
then undo the keystream XOR. -/
def aesGcmDecrypt (block : Nat → Nat → Nat → Nat) (key iv : Nat) (ct : List Nat × Nat) :
    Option (List Nat) :=
  if gcmTag block key iv ct.1 = ct.2 then some (ctrXor block key iv 2 ct.1) else none

/-! ## Concrete executions

Example sessions and stores, and two concrete event-loop traces used below:
a double-submit interleaving (two submit handlers both pass their guard
before either body arrives) and a sweep interleaved between a submit guard
and its body. -/

/-- A waiting session with two registered pollers (tokens 7 and 3). -/
def exWaiting : SignatureSession :=
  pushWaiter 3 (pushWaiter 7 (createSession 0 "te" "w1" "opk" "please sign" (some "Jane") none))

/-- A completed session (one successful submission). -/
def exCompleted : SignatureSession :=
  (submitWrite "tc" (some "203.0.113.9") (some "Safari") "CT" "IV" "EPK"
    (createSession 0 "te" "c1" "opk2" "ins2" none (some 5))).1

/-- An expired session (TTL one minute, swept). -/
def exExpired : SignatureSession :=
  expireSession "tx" (createSession 0 "te" "x1" "opk3" "ins3" none (some 1))

/-- A store holding one session in each state. -/
def exStore : Store := [("w1", exWaiting), ("c1", exCompleted), ("x1", exExpired)]

/-- Double-submit trace: the session (default TTL, created at `t = 0`). -/
def dblSession : SignatureSession := createSession 0 "t0" "s1" "pk" "sign here" none none

/-- Double-submit trace: after the create handler ran. -/
def dblState1 : SysState := { store := [("s1", dblSession)], pendingSubmits := [] }

/-- Double-submit trace: a first submit handler passed its guard and
suspended on the body read. -/
def dblState2 : SysState := { store := dblState1.store, pendingSubmits := [(0, "s1")] }

/-- Double-submit trace: a second submit handler also passed its guard
(the session is still waiting) and suspended. -/
def dblState3 : SysState := { store := dblState1.store, pendingSubmits := [(0, "s1"), (1, "s1")] }

/-- Double-submit trace: the session after the first write block. -/
def dblWritten1 : SignatureSession := (submitWrite "t1" none none "c0" "i0" "e0" dblSession).1

/-- Double-submit trace: the first body arrived; its write block ran. -/
def dblState4 : SysState :=
  { store := (submitBody dblState3.store "s1" "t1" none none (some "c0") (some "i0") (some "e0")).1
    pendingSubmits := dblState3.pendingSubmits.eraseP (fun q => q.1 == 0) }

/-- Double-submit trace: the session after the second write block. -/
def dblWritten2 : SignatureSession := (submitWrite "t2" none none "c1" "i1" "e1" dblWritten1).1

/-- Double-submit trace: the second body arrived; its write block ran too
(the status guard is not re-checked after the body read). -/
def dblState5 : SysState :=
  { store := (submitBody dblState4.store "s1" "t2" none none (some "c1") (some "i1") (some "e1")).1
    pendingSubmits := dblState4.pendingSubmits.eraseP (fun q => q.1 == 1) }

/-- Sweep-interleaving trace: the session (TTL one minute, created at
`t = 0`). -/
def swpSession : SignatureSession := createSession 0 "t0" "s2" "pk" "sign here" none (some 1)

/-- Sweep-interleaving trace: after the create handler ran. -/
def swpState1 : SysState := { store := [("s2", swpSession)], pendingSubmits := [] }

/-- Sweep-interleaving trace: a submit handler passed its guard (the session
was still waiting) and suspended on the body read. -/
def swpState2 : SysState := { store := swpState1.store, pendingSubmits := [(0, "s2")] }

/-- Sweep-interleaving trace: a sweeper tick ran at `t = 60001`, past the
session's `expiresAt = 60000`, and expired it. -/
def swpState3 : SysState :=
  { store := (sweep 60001 "t1" swpState2.store).1
    pendingSubmits := swpState2.pendingSubmits }

/-- Sweep-interleaving trace: the expired session. -/
def swpExpired : SignatureSession := expireSession "t1" swpSession

/-- Sweep-interleaving trace: the suspended submit body then arrived and its
write block ran on the expired session. -/
def swpState4 : SysState :=
  { store := (submitBody swpState3.store "s2" "t2" none none (some "c0") (some "i0") (some "e0")).1
    pendingSubmits := swpState3.pendingSubmits.eraseP (fun q => q.1 == 0) }

/-- Sweep-interleaving trace: the final session — completed, after having
been expired. -/
def swpFinal : SignatureSession := (submitWrite "t2" none none "c0" "i0" "e0" swpExpired).1

/-! ## Association-list lemmas -/

theorem lookup_mem {l : Store} {id : String} {s : SignatureSession}
    (h : List.lookup id l = some s) : (id, s) ∈ l := by
  induction l with
  | nil => simp [List.lookup] at h
  | cons p rest ih =>
    rw [List.lookup] at h
    by_cases hid : id = p.1
    · subst hid
      simp at h
      subst h
      exact List.mem_cons_self _ _
    · have hbeq : (id == p.1) = false := beq_false_of_ne hid
      rw [hbeq] at h
      exact List.mem_cons_of_mem _ (ih h)

theorem lookup_not_mem_keys {l : Store} {id : String}
    (h : List.lookup id l = none) : id ∉ l.map Prod.fst := by
  induction l with
  | nil => simp
  | cons p rest ih =>
    rw [List.lookup] at h
    by_cases hid : id = p.1
    · subst hid
      simp at h
    · have hbeq : (id == p.1) = false := beq_false_of_ne hid
      rw [hbeq] at h
      simp only [List.map_cons, List.mem_cons]
      rintro (h1 | h2)
      · exact hid h1
      · exact ih h h2

theorem lookup_eq_none_of_not_mem_keys {l : Store} {id : String}
    (h : id ∉ l.map Prod.fst) : List.lookup id l = none := by
  induction l with
  | nil => rfl
  | cons p rest ih =>
    simp only [List.map_cons, List.mem_cons, not_or] at h
    rw [List.lookup, beq_false_of_ne h.1]
    exact ih h.2

theorem mem_keys_of_lookup {l : Store} {id : String} {s : SignatureSession}
    (h : List.lookup id l = some s) : id ∈ l.map Prod.fst := by
  by_contra hmem
  rw [lookup_eq_none_of_not_mem_keys hmem] at h
  exact Option.noConfusion h

theorem lookup_cons {a k : String} {v : SignatureSession} {l : Store} :
    List.lookup a ((k, v) :: l) = if a = k then some v else List.lookup a l := by
  by_cases h : a = k
  · rw [if_pos h, List.lookup, beq_iff_eq.mpr h]
  · rw [if_neg h, List.lookup, beq_false_of_ne h]

theorem lookup_append_left {l l' : Store} {id : String} {s : SignatureSession}
    (h : List.lookup id l = some s) : List.lookup id (l ++ l') = some s := by
  induction l with
  | nil => simp [List.lookup] at h
  | cons p rest ih =>
    obtain ⟨k, v⟩ := p
    rw [List.cons_append, lookup_cons]
    rw [lookup_cons] at h
    by_cases hk : id = k
    · rw [if_pos hk] at h ⊢
      exact h
    · rw [if_neg hk] at h ⊢
      exact ih h

theorem updateSession_cons_self {k id : String} {v : SignatureSession} {rest : Store}
    {f : SignatureSession → SignatureSession} (hk : k = id) :
    updateSession ((k, v) :: rest) id f = (k, f v) :: updateSession rest id f := by
  simp [updateSession, hk]

theorem updateSession_cons_other {k id : String} {v : SignatureSession} {rest : Store}
    {f : SignatureSession → SignatureSession} (hk : k ≠ id) :
    updateSession ((k, v) :: rest) id f = (k, v) :: updateSession rest id f := by
  simp [updateSession, hk]

theorem lookup_updateSession_self {store : Store} {id : String}
    {f : SignatureSession → SignatureSession} :
    List.lookup id (updateSession store id f) = (List.lookup id store).map f := by
  induction store with
  | nil => rfl
  | cons p rest ih =>
    obtain ⟨k, v⟩ := p
    by_cases hk : k = id
    · rw [updateSession_cons_self hk, lookup_cons, lookup_cons, if_pos hk.symm, if_pos hk.symm]
      rfl
    · rw [updateSession_cons_other hk, lookup_cons, lookup_cons,
        if_neg (Ne.symm hk), if_neg (Ne.symm hk)]
      exact ih

theorem lookup_updateSession_other {store : Store} {id j : String}
    {f : SignatureSession → SignatureSession} (h : j ≠ id) :
    List.lookup j (updateSession store id f) = List.lookup j store := by
  induction store with
  | nil => rfl
  | cons p rest ih =>
    obtain ⟨k, v⟩ := p
    by_cases hk : k = id
    · rw [updateSession_cons_self hk, lookup_cons, lookup_cons,
        if_neg (fun hj => h (hj.trans hk)), if_neg (fun hj => h (hj.trans hk))]
      exact ih
    · rw [updateSession_cons_other hk, lookup_cons, lookup_cons]
      by_cases hj : j = k
      · rw [if_pos hj, if_pos hj]
      · rw [if_neg hj, if_neg hj]
        exact ih

theorem keys_updateSession {store : Store} {id : String}
    {f : SignatureSession → SignatureSession} :
    (updateSession store id f).map Prod.fst = store.map Prod.fst := by
  induction store with
  | nil => rfl
  | cons p rest ih =>
    obtain ⟨k, v⟩ := p
    by_cases hk : k = id
    · rw [updateSession_cons_self hk]
      simp only [List.map_cons]
      rw [ih]
    · rw [updateSession_cons_other hk]
      simp only [List.map_cons]
      rw [ih]

/-! ## Sweeper lemmas -/

theorem sweepSession_fst {now : Nat} {nowIso : String} {s : SignatureSession} :
    (sweepSession now nowIso s).1 =
      if s.expiresAt < now ∧ s.status = Status.waiting then expireSession nowIso s else s := by
  by_cases h : s.expiresAt < now ∧ s.status = Status.waiting <;> simp [sweepSession, h]

theorem sweepSession_fst_expiresAt {now : Nat} {nowIso : String} {s : SignatureSession} :
    (sweepSession now nowIso s).1.expiresAt = s.expiresAt := by
  rw [sweepSession_fst]
  by_cases h : s.expiresAt < now ∧ s.status = Status.waiting <;> simp [h, expireSession]

theorem sweepSession_fst_createdAt {now : Nat} {nowIso : String} {s : SignatureSession} :
    (sweepSession now nowIso s).1.createdAt = s.createdAt := by
  rw [sweepSession_fst]
  by_cases h : s.expiresAt < now ∧ s.status = Status.waiting <;> simp [h, expireSession]

theorem sweep_cons {now : Nat} {nowIso : String} {k : String} {v : SignatureSession}
    {rest : Store} :
    sweep now nowIso ((k, v) :: rest) =
      (if (sweepSession now nowIso v).1.expiresAt + DATA_TTL_MS < now
       then ((sweep now nowIso rest).1,
             (sweepSession now nowIso v).2 ++ (sweep now nowIso rest).2)
       else ((k, (sweepSession now nowIso v).1) :: (sweep now nowIso rest).1,
             (sweepSession now nowIso v).2 ++ (sweep now nowIso rest).2)) := rfl

theorem sweep_keys_sublist {now : Nat} {nowIso : String} {store : Store} :
    ((sweep now nowIso store).1.map Prod.fst).Sublist (store.map Prod.fst) := by
  induction store with
  | nil => simp [sweep]
  | cons p rest ih =>
    obtain ⟨k, v⟩ := p
    rw [sweep_cons]
    by_cases h : (sweepSession now nowIso v).1.expiresAt + DATA_TTL_MS < now
    · rw [if_pos h]
      exact List.Sublist.cons _ ih
    · rw [if_neg h]
      simp only [List.map_cons]
      exact List.Sublist.cons₂ _ ih

theorem sweep_mem {now : Nat} {nowIso : String} {store : Store} {p : String × SignatureSession}
    (hp : p ∈ (sweep now nowIso store).1) :
    ∃ q ∈ store, p = (q.1, (sweepSession now nowIso q.2).1) := by
  induction store with
  | nil => simp [sweep] at hp
  | cons q rest ih =>
    obtain ⟨k, v⟩ := q
    rw [sweep_cons] at hp
    by_cases h : (sweepSession now nowIso v).1.expiresAt + DATA_TTL_MS < now
    · rw [if_pos h] at hp
      obtain ⟨q, hq, hq2⟩ := ih hp
      exact ⟨q, List.mem_cons_of_mem _ hq, hq2⟩
    · rw [if_neg h] at hp
      rcases List.mem_cons.mp hp with h1 | h2
      · exact ⟨(k, v), List.mem_cons_self _ _, h1⟩
      · obtain ⟨q, hq, hq2⟩ := ih h2
        exact ⟨q, List.mem_cons_of_mem _ hq, hq2⟩

/-- Effect of one sweeper pass on the session looked up under `id` (the
store's keys are distinct, which the event loop maintains): the session is
dropped when its retention window has passed, and otherwise replaced by its
`sweepSession` image; all waiter invocations performed on it are among the
pass's invocations. -/
theorem sweep_lookup {now : Nat} {nowIso : String} {store : Store}
    (hnd : (store.map Prod.fst).Nodup) {id : String} {s : SignatureSession}
    (hs : List.lookup id store = some s) :
    (List.lookup id (sweep now nowIso store).1 =
      if s.expiresAt + DATA_TTL_MS < now then none else some (sweepSession now nowIso s).1) ∧
    ∀ d ∈ (sweepSession now nowIso s).2, d ∈ (sweep now nowIso store).2 := by
  induction store with
  | nil => simp [List.lookup] at hs
  | cons p rest ih =>
    obtain ⟨k, v⟩ := p
    simp only [List.map_cons, List.nodup_cons] at hnd
    rw [lookup_cons] at hs
    rw [sweep_cons]
    by_cases hk : id = k
    · rw [if_pos hk] at hs
      injection hs with hs
      subst hk
      rw [hs]
      by_cases hdel : (sweepSession now nowIso s).1.expiresAt + DATA_TTL_MS < now
      · rw [if_pos hdel]
        constructor
        · rw [if_pos (by rwa [sweepSession_fst_expiresAt] at hdel)]
          apply lookup_eq_none_of_not_mem_keys
          intro hmem
          exact hnd.1 (List.Sublist.subset sweep_keys_sublist hmem)
        · intro d hd
          exact List.mem_append_left _ hd
      · rw [if_neg hdel]
        constructor
        · rw [if_neg (by rwa [sweepSession_fst_expiresAt] at hdel), lookup_cons, if_pos rfl]
        · intro d hd
          exact List.mem_append_left _ hd
    · rw [if_neg hk] at hs
      have hrest := ih hnd.2 hs
      by_cases hdel : (sweepSession now nowIso v).1.expiresAt + DATA_TTL_MS < now
      · rw [if_pos hdel]
        exact ⟨hrest.1, fun d hd => List.mem_append_right _ (hrest.2 d hd)⟩
      · rw [if_neg hdel]
        constructor
        · rw [lookup_cons, if_neg hk]
          exact hrest.1
        · exact fun d hd => List.mem_append_right _ (hrest.2 d hd)

/-! ## The store invariant -/

theorem payloadIff_createSession {now : Nat} {nowIso id pk instr : String}
    {sn : Option String} {em : Option Nat} :
    payloadIff (createSession now nowIso id pk instr sn em) := by
  simp [payloadIff, createSession]

theorem payloadIff_pushWaiter {w : Nat} {s : SignatureSession} (h : payloadIff s) :
    payloadIff (pushWaiter w s) := h

theorem payloadIff_submitWrite {nowIso : String} {ip ua : Option String}
    {ct iv epk : String} {s : SignatureSession} :
    payloadIff (submitWrite nowIso ip ua ct iv epk s).1 := by
  simp [payloadIff, submitWrite]

theorem payloadIff_sweepSession {now : Nat} {nowIso : String} {s : SignatureSession}
    (h : payloadIff s) : payloadIff (sweepSession now nowIso s).1 := by
  rw [sweepSession_fst]
  by_cases hc : s.expiresAt < now ∧ s.status = Status.waiting
  · rw [if_pos hc]
    have hnc : ¬ s.encryptedPayload.isSome = true := by
      intro hsome
      have hstat : s.status = Status.completed := h.mpr hsome
      have hw := hc.2
      rw [hstat] at hw
      exact Status.noConfusion hw
    simp [payloadIff, expireSession, hnc]
  · rwa [if_neg hc]

theorem storeInv_updateSession {store : Store} {id : String}
    {f : SignatureSession → SignatureSession} (hinv : StoreInv store)
    (hf : ∀ s, payloadIff s → payloadIff (f s)) : StoreInv (updateSession store id f) := by
  constructor
  · rw [keys_updateSession]
    exact hinv.1
  · intro p hp
    obtain ⟨q, hq, hqp⟩ := List.mem_map.mp hp
    by_cases hk : q.1 = id
    · rw [if_pos hk] at hqp
      rw [← hqp]
      exact hf _ (hinv.2 q hq)
    · rw [if_neg hk] at hqp
      rw [← hqp]
      exact hinv.2 q hq

theorem storeInv_sweep {now : Nat} {nowIso : String} {store : Store}
    (hinv : StoreInv store) : StoreInv (sweep now nowIso store).1 := by
  constructor
  · exact List.Nodup.sublist sweep_keys_sublist hinv.1
  · intro p hp
    obtain ⟨q, hq, hqp⟩ := sweep_mem hp
    rw [hqp]
    exact payloadIff_sweepSession (hinv.2 q hq)

theorem falsyStr_some_false {c : String} (h : c ≠ "") : falsyStr (some c) = false := by
  simp [falsyStr, h]

theorem submitBody_valid {store : Store} {id nowIso : String} {ip ua : Option String}
    {ct iv epk : String} (hct : ct ≠ "") (hiv : iv ≠ "") (hepk : epk ≠ "") :
    submitBody store id nowIso ip ua (some ct) (some iv) (some epk) =
      (updateSession store id (fun s => (submitWrite nowIso ip ua ct iv epk s).1),
       SubmitResult.completed) := by
  simp [submitBody, falsyStr, hct, hiv, hepk]

theorem step_storeInv {σ σ' : SysState} (h : Step σ σ') (hinv : StoreInv σ.store) :
    StoreInv σ'.store := by
  cases h with
  | create now nowIso id pk instr sn em hfresh hpk hinstr =>
    constructor
    · rw [List.map_append]
      rw [List.nodup_append]
      refine ⟨hinv.1, List.nodup_singleton _, ?_⟩
      intro a ha hb
      simp only [List.map_cons, List.map_nil, List.mem_singleton] at hb
      subst hb
      exact lookup_not_mem_keys hfresh ha
    · intro p hp
      rcases List.mem_append.mp hp with h1 | h2
      · exact hinv.2 p h1
      · simp only [List.mem_singleton] at h2
        subst h2
        exact payloadIff_createSession
  | pollRegister id w s hs hw =>
    exact storeInv_updateSession hinv (fun s h => payloadIff_pushWaiter h)
  | submitGuardPass rid id hg => exact hinv
  | submitBodyDone rid id nowIso ip ua ct iv epk hp hct hiv hepk =>
    rw [submitBody_valid hct hiv hepk]
    show StoreInv (updateSession σ.store id (fun s => (submitWrite nowIso ip ua ct iv epk s).1))
    exact storeInv_updateSession hinv (fun s _ => payloadIff_submitWrite)
  | submitBodyBad rid id hp => exact hinv
  | sweepTick now nowIso => exact storeInv_sweep hinv

/-- Every reachable server state satisfies the store invariant. -/
theorem reachable_storeInv {σ : SysState} (h : Reachable σ) : StoreInv σ.store := by
  induction h with
  | init => exact ⟨List.nodup_nil, by intro p hp; simp at hp⟩
  | step hr hs ih => exact step_storeInv hs ih

/-- How one event-loop slice can change the session stored under a fixed id:
it is left alone, a waiter is pushed onto it, the submit write block runs on
it, or one sweeper case applies to it. -/
theorem step_lookup {σ σ' : SysState} (h : Step σ σ')
    (hnd : (σ.store.map Prod.fst).Nodup) {id : String} {s s' : SignatureSession}
    (hs : getSession σ.store id = some s) (hs' : getSession σ'.store id = some s') :
    s' = s ∨ (∃ w, s' = pushWaiter w s) ∨
    (∃ nowIso ip ua ct iv epk, s' = (submitWrite nowIso ip ua ct iv epk s).1) ∨
    (∃ now nowIso, s' = (sweepSession now nowIso s).1) := by
  cases h with
  | create now nowIso nid pk instr sn em hfresh hpk hinstr =>
    left
    have hsa : List.lookup id (σ.store ++ [(nid, createSession now nowIso nid pk instr sn em)]) = some s :=
      lookup_append_left hs
    have hs'' : List.lookup id (σ.store ++ [(nid, createSession now nowIso nid pk instr sn em)]) = some s' := hs'
    rw [hsa] at hs''
    exact (Option.some.inj hs'').symm
  | pollRegister rid w s0 hs0 hw =>
    by_cases hid : id = rid
    · subst hid
      have heq : s0 = s := by
        rw [hs0] at hs
        exact Option.some.inj hs
      right; left
      refine ⟨w, ?_⟩
      have hlook : List.lookup id (updateSession σ.store id (pushWaiter w)) = some (pushWaiter w s) := by
        rw [lookup_updateSession_self]
        rw [getSession] at hs0
        rw [hs0, heq]
        rfl
      have hs'' : List.lookup id (updateSession σ.store id (pushWaiter w)) = some s' := hs'
      rw [hlook] at hs''
      exact (Option.some.inj hs'').symm
    · left
      have hlook : List.lookup id (updateSession σ.store rid (pushWaiter w)) = some s := by
        rw [lookup_updateSession_other hid]
        exact hs
      have hs'' : List.lookup id (updateSession σ.store rid (pushWaiter w)) = some s' := hs'
      rw [hlook] at hs''
      exact (Option.some.inj hs'').symm
  | submitGuardPass rid sid hg =>
    left
    rw [hs] at hs'
    exact (Option.some.inj hs').symm
  | submitBodyDone rid sid nowIso ip ua ct iv epk hp hct hiv hepk =>
    have hs'' : List.lookup id (submitBody σ.store sid nowIso ip ua (some ct) (some iv) (some epk)).1 = some s' := hs'
    rw [submitBody_valid hct hiv hepk] at hs''
    by_cases hid : id = sid
    · subst hid
      right; right; left
      refine ⟨nowIso, ip, ua, ct, iv, epk, ?_⟩
      have hlook : List.lookup id (updateSession σ.store id (fun t => (submitWrite nowIso ip ua ct iv epk t).1)) = some ((submitWrite nowIso ip ua ct iv epk s).1) := by
        rw [lookup_updateSession_self]
        rw [getSession] at hs
        rw [hs]
        rfl
      rw [hlook] at hs''
      exact (Option.some.inj hs'').symm
    · left
      have hlook : List.lookup id (updateSession σ.store sid (fun t => (submitWrite nowIso ip ua ct iv epk t).1)) = some s := by
        rw [lookup_updateSession_other hid]
        exact hs
      rw [hlook] at hs''
      exact (Option.some.inj hs'').symm
  | submitBodyBad rid sid hp =>
    left
    rw [hs] at hs'
    exact (Option.some.inj hs').symm
  | sweepTick now nowIso =>
    right; right; right
    refine ⟨now, nowIso, ?_⟩
    have hch : List.lookup id (sweep now nowIso σ.store).1 =
        (if s.expiresAt + DATA_TTL_MS < now then none
         else some (sweepSession now nowIso s).1) := (sweep_lookup hnd hs).1
    have hs'' : List.lookup id (sweep now nowIso σ.store).1 = some s' := hs'
    by_cases hdel : s.expiresAt + DATA_TTL_MS < now
    · rw [if_pos hdel] at hch
      rw [hch] at hs''
      exact Option.noConfusion hs''
    · rw [if_neg hdel] at hch
      rw [hch] at hs''
      exact (Option.some.inj hs'').symm

/-! ## Wake-list and crypto helper lemmas -/

theorem sweepSession_snd {now : Nat} {nowIso : String} {s : SignatureSession} :
    (sweepSession now nowIso s).2 =
      if s.expiresAt < now ∧ s.status = Status.waiting
      then s.waiters.map (fun w => (w, expireSession nowIso s)) else [] := by
  by_cases h : s.expiresAt < now ∧ s.status = Status.waiting <;> simp [sweepSession, h]

theorem submitWrite_snd {nowIso : String} {ip ua : Option String} {ct iv epk : String}
    {s : SignatureSession} :
    (submitWrite nowIso ip ua ct iv epk s).2 =
      s.waiters.map (fun w => (w, (submitWrite nowIso ip ua ct iv epk s).1)) := rfl

theorem ctrXor_ctrXor {block : Nat → Nat → Nat → Nat} {key iv : Nat} :
    ∀ (ctr : Nat) (l : List Nat), ctrXor block key iv ctr (ctrXor block key iv ctr l) = l := by
  intro ctr l
  induction l generalizing ctr with
  | nil => rfl
  | cons b rest ih =>
    simp only [ctrXor]
    rw [Nat.xor_assoc, Nat.xor_self, Nat.xor_zero, ih]

/-! ## Reachability of the concrete traces -/

theorem reachable_dblState1 : Reachable dblState1 :=
  Reachable.step Reachable.init
    (Step.create ⟨[], []⟩ 0 "t0" "s1" "pk" "sign here" none none rfl (by decide) (by decide))

theorem reachable_dblState2 : Reachable dblState2 :=
  Reachable.step reachable_dblState1 (Step.submitGuardPass dblState1 0 "s1" rfl)

theorem reachable_dblState3 : Reachable dblState3 :=
  Reachable.step reachable_dblState2 (Step.submitGuardPass dblState2 1 "s1" rfl)

theorem step_dblState3_dblState4 : Step dblState3 dblState4 :=
  Step.submitBodyDone dblState3 0 "s1" "t1" none none "c0" "i0" "e0"
    (by decide) (by decide) (by decide) (by decide)

theorem reachable_dblState4 : Reachable dblState4 :=
  Reachable.step reachable_dblState3 step_dblState3_dblState4

theorem reachable_swpState1 : Reachable swpState1 :=
  Reachable.step Reachable.init
    (Step.create ⟨[], []⟩ 0 "t0" "s2" "pk" "sign here" none (some 1) rfl (by decide) (by decide))

theorem reachable_swpState2 : Reachable swpState2 :=
  Reachable.step reachable_swpState1 (Step.submitGuardPass swpState1 0 "s2" rfl)

theorem step_swpState2_swpState3 : Step swpState2 swpState3 :=
  Step.sweepTick swpState2 60001 "t1"

theorem reachable_swpState3 : Reachable swpState3 :=
  Reachable.step reachable_swpState2 step_swpState2_swpState3

/-! ## Claim theorems -/

/-- C4: For any plaintext payload `P`, owner P-256 key pair `(skO, pkO)`,
signer ephemeral P-256 key pair `(skS, pkS)`, and any IV: decrypting, with
the key derived via ECDH from `(skO, pkS)`, the AES-256-GCM ciphertext
produced with the key derived from `(skS, pkO)` and that IV yields `P` —
the two ECDH derivations agree, so the owner-side decryption of
`poll-signature.ts` inverts the signer-side encryption.  The statement is
parametric in the AES block permutation `block`, so it holds for the real
AES in particular. -/
theorem c4_ecdh_gcm_roundtrip (block : Nat → Nat → Nat → Nat) (skO skS : PointExp)
    (iv : Nat) (P : List Nat) :
    aesGcmDecrypt block (deriveBits skO (pubKey skS)).val iv
      (aesGcmEncrypt block (deriveBits skS (pubKey skO)).val iv P) = some P := by
  have hkey : deriveBits skO (pubKey skS) = deriveBits skS (pubKey skO) := by
    show skO * (skS * genExp) = skS * (skO * genExp)
    rw [mul_left_comm]
  rw [hkey]
  simp [aesGcmDecrypt, aesGcmEncrypt, ctrXor_ctrXor]

/-- C1: In every reachable server state, a stored session's
`encryptedPayload` is present if and only if its `status` is `completed`
(the submit write block sets both in one synchronous slice, so pollers never
see them out of sync), and consequently a poll response whose status is
`completed` always carries the payload. -/
theorem c1_envelope_iff_completed (σ : SysState) (h : Reachable σ) (id : String)
    (s : SignatureSession) (hs : getSession σ.store id = some s) :
    (s.status = Status.completed ↔ s.encryptedPayload.isSome = true) ∧
    ((sessionPollResponse s).status = Status.completed →
      (sessionPollResponse s).encryptedPayload.isSome = true) := by
  have hiff : payloadIff s := (reachable_storeInv h).2 (id, s) (lookup_mem hs)
  refine ⟨hiff, ?_⟩
  intro hresp
  by_cases hc : s.status = Status.completed ∧ s.encryptedPayload.isSome = true
  · simp only [sessionPollResponse, if_pos hc]
    exact hc.2
  · simp only [sessionPollResponse, if_neg hc] at hresp
    exact absurd ⟨hresp, hiff.mp hresp⟩ hc

/-- C1 (witness): the invariant and the poll-response consequence evaluated
on a concrete reachable state holding a completed session. -/
theorem c1_witness :
    (dblWritten1.status = Status.completed ↔ dblWritten1.encryptedPayload.isSome = true) ∧
    (sessionPollResponse dblWritten1).encryptedPayload.isSome = true := by
  have h := c1_envelope_iff_completed dblState4 reachable_dblState4 "s1" dblWritten1 rfl
  exact ⟨h.1, h.2 rfl⟩

/-- C2 (counterexample): the claim "a session accepts exactly one
submission ever, and a completed session's `encryptedPayload` and `auditLog`
stay exactly as the first submission wrote them" fails on the code.  The
submit handler reads the request body (`await c.req.json()`) *after* its
status guard, so two submit requests can both pass the guard while the
session is still waiting; each body then runs the write block without
re-checking the status.  Concretely: in the reachable state `dblState4` the
session is completed with the first envelope, one more event-loop slice — a
second, already-guard-approved submit body — is accepted (HTTP 200
`{status:"completed"}`), overwrites the envelope and appends a second
`submitted` audit entry. -/
theorem c2_counterexample_double_submit :
    Reachable dblState4 ∧
    getSession dblState4.store "s1" = some dblWritten1 ∧
    dblWritten1.status = Status.completed ∧
    dblWritten1.encryptedPayload =
      some { ciphertext := "c0", iv := "i0", ephemeralPublicKey := "e0" } ∧
    Step dblState4 dblState5 ∧
    (submitBody dblState4.store "s1" "t2" none none (some "c1") (some "i1") (some "e1")).2 =
      SubmitResult.completed ∧
    getSession dblState5.store "s1" = some dblWritten2 ∧
    dblWritten2.encryptedPayload =
      some { ciphertext := "c1", iv := "i1", ephemeralPublicKey := "e1" } ∧
    List.map AuditEntry.event dblWritten2.auditLog = ["created", "submitted", "submitted"] := by
  refine ⟨reachable_dblState4, rfl, rfl, rfl, ?_, rfl, rfl, rfl, rfl⟩
  exact Step.submitBodyDone dblState4 1 "s1" "t2" none none "c1" "i1" "e1"
    (by decide) (by decide) (by decide) (by decide)

/-- C2 (amended): a submit request whose status guard runs while the
session's status is `completed` is rejected with the already-completed error
(HTTP 409) before the body is read, and therefore without touching the
session.  (A submit whose guard already passed while the session was still
waiting can, however, still write — see the counterexample —, so "exactly
one submission ever" holds only guard-to-guard, not end-to-end.) -/
theorem c2_amended_completed_submit_rejected (store : Store) (id : String)
    (s : SignatureSession) (hs : getSession store id = some s)
    (hc : s.status = Status.completed) :
    submitGuard store id = SubmitGuardResult.alreadyCompleted := by
  simp [submitGuard, hs, hc]

/-- C2 (amended, witness): the 409 guard evaluated on a concrete store with
a completed session. -/
theorem c2_amended_witness :
    submitGuard exStore "c1" = SubmitGuardResult.alreadyCompleted :=
  c2_amended_completed_submit_rejected exStore "c1" exCompleted rfl rfl

/-- C3 (counterexample): the claim "once a session is completed or expired
its status never changes again" fails on the code.  The submit handler's
status guard and its write block are separated by `await c.req.json()`; a
sweeper tick in that window expires the session, and the write block — which
does not re-check the status — then flips the already-expired session to
`completed`.  Concretely: in the reachable state `swpState3` the session is
`expired`, and one more event-loop slice (the suspended submit body) leaves
it `completed`. -/
theorem c3_counterexample_expired_to_completed :
    Reachable swpState3 ∧
    getSession swpState3.store "s2" = some swpExpired ∧
    swpExpired.status = Status.expired ∧
    Step swpState3 swpState4 ∧
    getSession swpState4.store "s2" = some swpFinal ∧
    swpFinal.status = Status.completed := by
  refine ⟨reachable_swpState3, rfl, rfl, ?_, rfl, rfl⟩
  exact Step.submitBodyDone swpState3 0 "s2" "t2" none none "c0" "i0" "e0"
    (by decide) (by decide) (by decide) (by decide)

/-- C3 (amended): every session starts `waiting`, and across all operations
the only status changes are `waiting → completed` (a submit write block),
`waiting → expired` (the TTL sweep), and additionally `expired → completed`
performed by a submit write block whose guard had passed before a sweep tick
intervened (see the counterexample).  In particular `completed` is terminal,
and no operation ever sets a session back to `waiting`. -/
theorem c3_amended_status_transitions :
    (∀ (now : Nat) (nowIso id pk instr : String) (sn : Option String) (em : Option Nat),
      (createSession now nowIso id pk instr sn em).status = Status.waiting) ∧
    (∀ σ σ' : SysState, Reachable σ → Step σ σ' →
      ∀ (id : String) (s s' : SignatureSession),
        getSession σ.store id = some s → getSession σ'.store id = some s' →
        s.status ≠ s'.status →
        (s.status = Status.waiting ∧ s'.status = Status.completed) ∨
        (s.status = Status.waiting ∧ s'.status = Status.expired) ∨
        (s.status = Status.expired ∧ s'.status = Status.completed)) := by
  constructor
  · intro now nowIso id pk instr sn em
    rfl
  · intro σ σ' hr hstep id s s' hs hs' hne
    have hnd := (reachable_storeInv hr).1
    rcases step_lookup hstep hnd hs hs' with h | ⟨w, h⟩ | ⟨iso, ip, ua, ct, iv, epk, h⟩ |
      ⟨n, iso, h⟩
    · rw [h] at hne
      exact absurd rfl hne
    · rw [h] at hne
      exact absurd rfl hne
    · have hs'c : s'.status = Status.completed := by rw [h]; rfl
      cases hst : s.status with
      | waiting => exact Or.inl ⟨rfl, hs'c⟩
      | completed =>
        rw [hst, hs'c] at hne
        exact absurd rfl hne
      | expired => exact Or.inr (Or.inr ⟨rfl, hs'c⟩)
    · rw [h] at hne ⊢
      rw [sweepSession_fst] at hne ⊢
      by_cases hc : s.expiresAt < n ∧ s.status = Status.waiting
      · rw [if_pos hc] at hne ⊢
        exact Or.inr (Or.inl ⟨hc.2, rfl⟩)
      · rw [if_neg hc] at hne
        exact absurd rfl hne

/-- C3 (amended, witness): concretely, the sweep tick of the
sweep-interleaving trace performs a `waiting → expired` transition, and the
created session starts `waiting`. -/
theorem c3_amended_witness :
    (createSession 0 "t0" "s2" "pk" "sign here" none (some 1)).status = Status.waiting ∧
    ((swpSession.status = Status.waiting ∧ swpExpired.status = Status.completed) ∨
     (swpSession.status = Status.waiting ∧ swpExpired.status = Status.expired) ∨
     (swpSession.status = Status.expired ∧ swpExpired.status = Status.completed)) := by
  constructor
  · exact c3_amended_status_transitions.1 0 "t0" "s2" "pk" "sign here" none (some 1)
  · exact c3_amended_status_transitions.2 swpState2 swpState3 reachable_swpState2
      step_swpState2_swpState3 "s2" swpSession swpExpired rfl rfl (by decide)

/-- C5: on a sweep tick at time `now`, for every stored session (the store's
keys are distinct, as maintained by the event loop): if its retention window
has passed (`now > expiresAt + DATA_TTL_MS`) the record is removed; if it is
past `expiresAt` and still `waiting`, it is expired — status set to
`expired`, an `expired` audit entry appended, every registered waiter
invoked with the expired session, the waiter list cleared — and (when not
also deleted) stored in that form; otherwise it is left unchanged. -/
theorem c5_sweep_pass (now : Nat) (nowIso : String) (store : Store)
    (hnd : (store.map Prod.fst).Nodup) (id : String) (s : SignatureSession)
    (hs : getSession store id = some s) :
    (s.expiresAt + DATA_TTL_MS < now → getSession (sweep now nowIso store).1 id = none) ∧
    (s.expiresAt < now → s.status = Status.waiting →
      ((expireSession nowIso s).status = Status.expired ∧
       (expireSession nowIso s).auditLog = s.auditLog ++
         [{ timestamp := nowIso, event := "expired", ip := none, userAgent := none }] ∧
       (expireSession nowIso s).waiters = []) ∧
      (∀ w ∈ s.waiters, (w, expireSession nowIso s) ∈ (sweep now nowIso store).2) ∧
      (¬ s.expiresAt + DATA_TTL_MS < now →
        getSession (sweep now nowIso store).1 id = some (expireSession nowIso s))) ∧
    (¬ (s.expiresAt < now ∧ s.status = Status.waiting) →
     ¬ s.expiresAt + DATA_TTL_MS < now →
      getSession (sweep now nowIso store).1 id = some s) := by
  have hmain : List.lookup id (sweep now nowIso store).1 =
      (if s.expiresAt + DATA_TTL_MS < now then none
       else some (sweepSession now nowIso s).1) ∧
      ∀ d ∈ (sweepSession now nowIso s).2, d ∈ (sweep now nowIso store).2 :=
    sweep_lookup hnd hs
  refine ⟨?_, ?_, ?_⟩
  · intro hdel
    show List.lookup id (sweep now nowIso store).1 = none
    rw [hmain.1, if_pos hdel]
  · intro hexp hw
    have hcond : s.expiresAt < now ∧ s.status = Status.waiting := ⟨hexp, hw⟩
    refine ⟨⟨rfl, rfl, rfl⟩, ?_, ?_⟩
    · intro w hwmem
      apply hmain.2
      rw [sweepSession_snd, if_pos hcond]
      exact List.mem_map_of_mem _ hwmem
    · intro hkeep
      show List.lookup id (sweep now nowIso store).1 = some (expireSession nowIso s)
      rw [hmain.1, if_neg hkeep, sweepSession_fst, if_pos hcond]
  · intro hnc hkeep
    show List.lookup id (sweep now nowIso store).1 = some s
    rw [hmain.1, if_neg hkeep, sweepSession_fst, if_neg hnc]

/-- C5 (witness): one sweep tick at `t = 3700000` over a store holding a
waiting session with two pollers (expired a moment ago), a completed
session, and a long-expired session: the last is deleted, the first is
expired and its waiters are invoked with the expired view, the completed
one is untouched. -/
theorem c5_witness :
    getSession (sweep 3700000 "ts" exStore).1 "x1" = none ∧
    getSession (sweep 3700000 "ts" exStore).1 "w1" = some (expireSession "ts" exWaiting) ∧
    (7, expireSession "ts" exWaiting) ∈ (sweep 3700000 "ts" exStore).2 ∧
    getSession (sweep 3700000 "ts" exStore).1 "c1" = some exCompleted := by
  have hx := (c5_sweep_pass 3700000 "ts" exStore (by decide) "x1" exExpired rfl).1 (by decide)
  have hw := (c5_sweep_pass 3700000 "ts" exStore (by decide) "w1" exWaiting rfl).2.1
    (by decide) rfl
  have hc := (c5_sweep_pass 3700000 "ts" exStore (by decide) "c1" exCompleted rfl).2.2
    (by decide) (by decide)
  exact ⟨hx, hw.2.2 (by decide), hw.2.1 7 (by decide), hc⟩

/-- C6: a single state transition wakes every registered waiter: the submit
write block and the sweeper's expiry branch each invoke all `N` registered
wake callbacks, each with the same post-transition session, and leave the
waiter list empty. -/
theorem c6_broadcast_wake (s : SignatureSession) :
    (∀ (nowIso : String) (ip ua : Option String) (ct iv epk : String),
      ((submitWrite nowIso ip ua ct iv epk s).2).length = s.waiters.length ∧
      (∀ d ∈ (submitWrite nowIso ip ua ct iv epk s).2,
        d.2 = (submitWrite nowIso ip ua ct iv epk s).1) ∧
      (∀ w ∈ s.waiters,
        (w, (submitWrite nowIso ip ua ct iv epk s).1) ∈
          (submitWrite nowIso ip ua ct iv epk s).2) ∧
      ((submitWrite nowIso ip ua ct iv epk s).1).waiters = []) ∧
    (∀ (now : Nat) (nowIso : String), s.expiresAt < now → s.status = Status.waiting →
      ((sweepSession now nowIso s).2).length = s.waiters.length ∧
      (∀ d ∈ (sweepSession now nowIso s).2, d.2 = (sweepSession now nowIso s).1) ∧
      (∀ w ∈ s.waiters,
        (w, (sweepSession now nowIso s).1) ∈ (sweepSession now nowIso s).2) ∧
      ((sweepSession now nowIso s).1).waiters = []) := by
  constructor
  · intro nowIso ip ua ct iv epk
    refine ⟨?_, ?_, ?_, rfl⟩
    · rw [submitWrite_snd, List.length_map]
    · intro d hd
      rw [submitWrite_snd] at hd
      obtain ⟨w, hw, hdw⟩ := List.mem_map.mp hd
      rw [← hdw]
    · intro w hw
      rw [submitWrite_snd]
      exact List.mem_map_of_mem _ hw
  · intro now nowIso hexp hw
    have hcond : s.expiresAt < now ∧ s.status = Status.waiting := ⟨hexp, hw⟩
    rw [sweepSession_fst, sweepSession_snd, if_pos hcond, if_pos hcond]
    refine ⟨?_, ?_, ?_, rfl⟩
    · rw [List.length_map]
    · intro d hd
      obtain ⟨w, hwm, hdw⟩ := List.mem_map.mp hd
      rw [← hdw]
    · intro w hwm
      exact List.mem_map_of_mem _ hwm

/-- C6 (witness): broadcast evaluated on a session with two registered
pollers, for both a submission and an expiry. -/
theorem c6_witness :
    ((submitWrite "t" none none "c" "i" "e" exWaiting).2).length = exWaiting.waiters.length ∧
    (7, (submitWrite "t" none none "c" "i" "e" exWaiting).1) ∈
      (submitWrite "t" none none "c" "i" "e" exWaiting).2 ∧
    ((sweepSession 3600001 "tz" exWaiting).2).length = exWaiting.waiters.length ∧
    (3, (sweepSession 3600001 "tz" exWaiting).1) ∈ (sweepSession 3600001 "tz" exWaiting).2 ∧
    ((sweepSession 3600001 "tz" exWaiting).1).waiters = [] := by
  have h1 := (c6_broadcast_wake exWaiting).1 "t" none none "c" "i" "e"
  have h2 := (c6_broadcast_wake exWaiting).2 3600001 "tz" (by decide) rfl
  exact ⟨h1.1, h1.2.2.1 7 (by decide), h2.1, h2.2.2.1 3 (by decide), h2.2.2.2⟩

/-- C7: the info handler fails `notFound` (404) when the id is absent,
`expired` (410) when the status is expired, `alreadyCompleted` (409) when it
is completed; on a waiting session it returns exactly the owner's public
key, the instructions and the signer name.  The response type carries no
payload, audit or key-material field, and the `requestDriversLicense` slot
is always `none` (absent from the JSON) because the store's record has no
such field. -/
theorem c7_info_contract (store : Store) (id : String) :
    (getSession store id = none → getSessionInfo store id = InfoResult.notFound) ∧
    (∀ s, getSession store id = some s →
      (s.status = Status.expired → getSessionInfo store id = InfoResult.expired) ∧
      (s.status = Status.completed → getSessionInfo store id = InfoResult.alreadyCompleted) ∧
      (s.status = Status.waiting →
        getSessionInfo store id = InfoResult.ok s.publicKeyJwk s.instructions s.signerName none)) := by
  constructor
  · intro h
    simp [getSessionInfo, h]
  · intro s hs
    refine ⟨?_, ?_, ?_⟩ <;> intro h <;> simp [getSessionInfo, hs, h]

/-- C7 (witness): the four branches of the info handler evaluated on a
concrete store. -/
theorem c7_witness :
    getSessionInfo exStore "zz" = InfoResult.notFound ∧
    getSessionInfo exStore "x1" = InfoResult.expired ∧
    getSessionInfo exStore "c1" = InfoResult.alreadyCompleted ∧
    getSessionInfo exStore "w1" =
      InfoResult.ok "opk" "please sign" (some "Jane") none := by
  refine ⟨(c7_info_contract exStore "zz").1 rfl, ?_, ?_, ?_⟩
  · exact ((c7_info_contract exStore "x1").2 exExpired rfl).1 rfl
  · exact ((c7_info_contract exStore "c1").2 exCompleted rfl).2.1 rfl
  · exact ((c7_info_contract exStore "w1").2 exWaiting rfl).2.2 rfl

/-- C8: `expiresAt` is fixed at creation as `createdAt` plus the ttl
(`expiryMinutes`, default 60, converted to milliseconds), and no later
operation of the event loop ever changes a stored session's `createdAt` or
`expiresAt`. -/
theorem c8_expiry_fixed :
    (∀ (now : Nat) (nowIso id pk instr : String) (sn : Option String) (em : Option Nat),
      (createSession now nowIso id pk instr sn em).createdAt = now ∧
      (createSession now nowIso id pk instr sn em).expiresAt =
        (createSession now nowIso id pk instr sn em).createdAt + em.getD 60 * 60 * 1000) ∧
    (∀ σ σ' : SysState, Reachable σ → Step σ σ' →
      ∀ (id : String) (s s' : SignatureSession),
        getSession σ.store id = some s → getSession σ'.store id = some s' →
        s'.createdAt = s.createdAt ∧ s'.expiresAt = s.expiresAt) := by
  constructor
  · intro now nowIso id pk instr sn em
    exact ⟨rfl, rfl⟩
  · intro σ σ' hr hstep id s s' hs hs'
    have hnd := (reachable_storeInv hr).1
    rcases step_lookup hstep hnd hs hs' with h | ⟨w, h⟩ | ⟨iso, ip, ua, ct, iv, epk, h⟩ |
      ⟨n, iso, h⟩
    · rw [h]
      exact ⟨rfl, rfl⟩
    · rw [h]
      exact ⟨rfl, rfl⟩
    · rw [h]
      exact ⟨rfl, rfl⟩
    · rw [h]
      exact ⟨sweepSession_fst_createdAt, sweepSession_fst_expiresAt⟩

/-- C8 (witness): the creation equation with an explicit ttl, and
preservation across a concrete submit-write step. -/
theorem c8_witness :
    ((createSession 5 "tw" "s9" "pk" "ins" none (some 2)).createdAt = 5 ∧
     (createSession 5 "tw" "s9" "pk" "ins" none (some 2)).expiresAt =
       (createSession 5 "tw" "s9" "pk" "ins" none (some 2)).createdAt +
         (some 2 : Option Nat).getD 60 * 60 * 1000) ∧
    (dblWritten1.createdAt = dblSession.createdAt ∧
     dblWritten1.expiresAt = dblSession.expiresAt) := by
  constructor
  · exact c8_expiry_fixed.1 5 "tw" "s9" "pk" "ins" none (some 2)
  · exact c8_expiry_fixed.2 dblState3 dblState4 reachable_dblState3 step_dblState3_dblState4
      "s1" dblSession dblWritten1 rfl rfl

/-- C9: expiry is enforced only by the sweep tick, never at
request-handling time.  The info handler and the submit handler consult only
`session.status`, never the clock: for a session whose `expiresAt` is
already in the past but whose status is still `waiting` (no sweep has run
yet), the submit guard passes, the write block completes the session, and
the info handler answers 200 with the session data. -/
theorem c9_lazy_expiry (store : Store) (id : String) (s : SignatureSession) (now : Nat)
    (hs : getSession store id = some s) (hw : s.status = Status.waiting)
    (_hexp : s.expiresAt < now) :
    submitGuard store id = SubmitGuardResult.proceed ∧
    getSessionInfo store id = InfoResult.ok s.publicKeyJwk s.instructions s.signerName none ∧
    (∀ (nowIso : String) (ip ua : Option String) (ct iv epk : String),
      ct ≠ "" → iv ≠ "" → epk ≠ "" →
      (submitBody store id nowIso ip ua (some ct) (some iv) (some epk)).2 =
        SubmitResult.completed ∧
      getSession (submitBody store id nowIso ip ua (some ct) (some iv) (some epk)).1 id =
        some ((submitWrite nowIso ip ua ct iv epk s).1) ∧
      ((submitWrite nowIso ip ua ct iv epk s).1).status = Status.completed) := by
  refine ⟨by simp [submitGuard, hs, hw], by simp [getSessionInfo, hs, hw], ?_⟩
  intro nowIso ip ua ct iv epk hct hiv hepk
  rw [submitBody_valid hct hiv hepk]
  refine ⟨rfl, ?_, rfl⟩
  show List.lookup id (updateSession store id (fun t => (submitWrite nowIso ip ua ct iv epk t).1)) =
    some ((submitWrite nowIso ip ua ct iv epk s).1)
  rw [lookup_updateSession_self]
  rw [getSession] at hs
  rw [hs]
  rfl

/-- C9 (witness): the waiting session of the concrete store has
`expiresAt = 3600000 < 3600001`, yet submit and info both succeed. -/
theorem c9_witness :
    submitGuard exStore "w1" = SubmitGuardResult.proceed ∧
    getSessionInfo exStore "w1" = InfoResult.ok "opk" "please sign" (some "Jane") none ∧
    (submitBody exStore "w1" "tq" none none (some "c") (some "i") (some "e")).2 =
      SubmitResult.completed ∧
    getSession (submitBody exStore "w1" "tq" none none (some "c") (some "i") (some "e")).1 "w1" =
      some ((submitWrite "tq" none none "c" "i" "e" exWaiting).1) := by
  have h := c9_lazy_expiry exStore "w1" exWaiting 3600001 rfl rfl (by decide)
  have h3 := h.2.2 "tq" none none "c" "i" "e" (by decide) (by decide) (by decide)
  exact ⟨h.1, h.2.1, h3.1, h3.2.1⟩

/-- C10: the signing-page route returns 404 exactly when the session id is
not in the store, and serves the page (200) for any stored session
regardless of its status — including expired and completed ones (the
handler performs no status check). -/
theorem c10_sign_page_contract (store : Store) (id : String) :
    (signPage store id = SignPageResult.notFound ↔ getSession store id = none) ∧
    (∀ s, getSession store id = some s → signPage store id = SignPageResult.html) := by
  constructor
  · constructor
    · intro h
      cases hq : getSession store id with
      | none => rfl
      | some s =>
        rw [signPage, hq] at h
        exact SignPageResult.noConfusion h
    · intro h
      simp [signPage, h]
  · intro s hs
    simp [signPage, hs]

/-- C10 (witness): 404 on an unknown id; the page is served for an expired
and for a completed session. -/
theorem c10_witness :
    (signPage exStore "zz" = SignPageResult.notFound ↔ getSession exStore "zz" = none) ∧
    signPage exStore "x1" = SignPageResult.html ∧
    signPage exStore "c1" = SignPageResult.html := by
  refine ⟨(c10_sign_page_contract exStore "zz").1, ?_, ?_⟩
  · exact (c10_sign_page_contract exStore "x1").2 exExpired rfl
  · exact (c10_sign_page_contract exStore "c1").2 exCompleted rfl

end EhiRelay
